import Mathlib

/-!
Verification of the SMC/ICT trading bot against its specification.

The repository ships the persistence schema (`sql/init.sql`) and the
monitoring dashboard (TypeScript route handlers); the Python engine
(SignalGate, DecisionRouter, PositionSizer, TradeLifecycleManager) is not
part of the source tree, so those components are modelled from the
specification text and each such definition is marked
`Modelled from the spec:` in its doc comment.  Everything else is a direct
shallow embedding of the source files.
-/

namespace TradingBot

/-! ## Decision data model (spec section 3) -/

/-- Modelled from the spec: the `Decision` record of section 3 — the engine
code producing decisions is not in the source tree.  Prices are rationals,
nullable columns are `Option`. -/
structure Decision where
  asset : String
  direction : String
  scenario : String
  confidence : Int
  entry_price : Option ℚ
  sl_price : Option ℚ
  tp_price : Option ℚ
  rr_ratio : Option ℚ
  sweep_level : Option String
  trade_valid : Bool
  reason : String
  provider_used : String
deriving DecidableEq, Repr

/-- Modelled from the spec: enforcement of the section-3 invariant
`trade_valid=false ⇒ entry,sl,tp,rr are all null` on every decision the
system produces or persists (the producing Python code is not in the
source tree). -/
def enforceNullInvariant (d : Decision) : Decision :=
  if d.trade_valid then d
  else { d with entry_price := none, sl_price := none,
                tp_price := none, rr_ratio := none }

/-- Modelled from the spec: the Router-side override of section 4.6 — a
Decision accepted via the fallback provider has `trade_valid`
force-overridden to `false` unless `confidence > 85`.  The fallback
provider code is not in the source tree. -/
def routerFallbackOverride (d : Decision) : Decision :=
  if d.confidence > 85 then d
  else enforceNullInvariant { d with trade_valid := false }

/-! ## PositionSizer (spec section 4.8) -/

/-- Risk fraction fixed at 1 percent (spec section 4.8). -/
def RISK_FRACTION : ℚ := 1 / 100

/-- Stop distance converted to pip units: `|entry - sl| / pipSize`. -/
def stopDistancePips (entry sl pipSize : ℚ) : ℚ :=
  |entry - sl| / pipSize

/-- Modelled from the spec: the PositionSizer of section 4.8 — the sizing
code is not in the source tree.  `lot_size = (capital × risk_fraction) /
(stop_distance_pips × pip_value_per_lot)`; a non-positive stop distance or
pip value is a hard validation failure (`none`). -/
def computeLotSize (capital entry sl pipSize pipValue : ℚ) : Option ℚ :=
  let pips := stopDistancePips entry sl pipSize
  if pips ≤ 0 ∨ pipValue ≤ 0 then none
  else some (capital * RISK_FRACTION / (pips * pipValue))

/-! ## DailyQuota store (sql/init.sql `daily_trade_counts`, spec sections 3, 4.7, 4.9) -/

/-- A row of the `daily_trade_counts` table of `sql/init.sql` (the `id`
serial is irrelevant to the claims).  The calendar day is kept abstract as
a string. -/
structure QuotaRow where
  asset : String
  trade_date : String
  closed_trades : Nat
deriving DecidableEq, Repr

/-- The `UNIQUE(asset, trade_date)` constraint of `daily_trade_counts`:
no two rows share the (asset, trade_date) pair. -/
def quotaUnique (t : List QuotaRow) : Prop :=
  t.Pairwise fun r1 r2 => ¬(r1.asset = r2.asset ∧ r1.trade_date = r2.trade_date)

/-- Modelled from the spec: the quota update run by the
TradeLifecycleManager on trade closure (sections 4.9 and 5) — an atomic
insert-or-update on the (asset, trade_date) key incrementing
`closed_trades`; the Python code performing it is not in the source
tree.  Under the uniqueness constraint at most one row matches, so
updating the first match is the SQL upsert. -/
def quotaUpsertIncrement : List QuotaRow → String → String → List QuotaRow
  | [], a, d => [⟨a, d, 1⟩]
  | r :: rs, a, d =>
      if r.asset = a ∧ r.trade_date = d
      then { r with closed_trades := r.closed_trades + 1 } :: rs
      else r :: quotaUpsertIncrement rs a d

/-- Read of the DailyQuota row for (asset, day): `closed_trades` of the
first matching row, `0` when absent (spec section 4.7 step (d)). -/
def quotaCount : List QuotaRow → String → String → Nat
  | [], _, _ => 0
  | r :: rs, a, d =>
      if r.asset = a ∧ r.trade_date = d then r.closed_trades
      else quotaCount rs a d

/-- Modelled from the spec: the persisted state the SignalGate and
TradeLifecycleManager share — the quota table and the list of executed
signal ids (section 4.7); the Python code is not in the source tree. -/
structure GateState where
  quota : List QuotaRow
  executed : List Nat
deriving DecidableEq, Repr

/-- Modelled from the spec: the events touching the daily quota — a trade
closing for (asset, day), and an otherwise-valid decision (signal id,
asset, day, validity of all other gates) reaching the quota check
(sections 4.7 and 4.9). -/
inductive GateEvent
  | closeTrade (asset day : String)
  | attempt (sigId : Nat) (asset day : String) (valid : Bool)
deriving DecidableEq, Repr

/-- Modelled from the spec: one step of the quota protocol — closing a
trade increments the (asset, day) counter; an attempt executes only when
the other gates pass and `closed_trades < 2` (section 4.7 step (d):
`closed_trades ≥ 2` stops without execution). -/
def gateStep (s : GateState) : GateEvent → GateState
  | .closeTrade a d => { s with quota := quotaUpsertIncrement s.quota a d }
  | .attempt i a d v =>
      if v = true ∧ quotaCount s.quota a d < 2
      then { s with executed := s.executed ++ [i] }
      else s

/-- Run of the quota protocol over a list of events. -/
def gateRun (s : GateState) : List GateEvent → GateState
  | [] => s
  | e :: es => gateRun (gateStep s e) es

/-! ## Signal store and dedup gate (spec sections 3 and 4.7,
`sql/init.sql` `signals` / `idx_signals_recent_dedup`) -/

/-- A persisted signal, the fields relevant to deduplication: the key
(asset, direction, sweep_level) indexed by `idx_signals_recent_dedup`,
the timestamp (seconds), and the `executed` flag. -/
structure Signal where
  asset : String
  direction : String
  sweep_level : String
  ts : Int
  executed : Bool
deriving DecidableEq, Repr

/-- The 15-minute trailing dedup window, in seconds (spec section 4.7
step (c)). -/
def DEDUP_WINDOW : Int := 15 * 60

/-- Modelled from the spec: the dedup search of section 4.7 step (c) —
a persisted signal with the same (asset, direction, sweep_level) whose
timestamp lies in the trailing 15-minute window; the Python gate code is
not in the source tree. -/
def isRecentDuplicate (store : List Signal) (asset dir sweep : String)
    (ts : Int) : Bool :=
  store.any fun p =>
    (p.asset == asset) && (p.direction == dir) && (p.sweep_level == sweep)
      && decide (ts - DEDUP_WINDOW ≤ p.ts) && decide (p.ts ≤ ts)

/-- Modelled from the spec: gate steps (b) and (c) of section 4.7 — the
decision is persisted as a Signal (not yet executed), and when a recent
duplicate exists the gate marks it `executed=false` and stops (second
component `false` means no execution). -/
def dedupGate (store : List Signal) (asset dir sweep : String) (ts : Int) :
    List Signal × Bool :=
  let sig : Signal :=
    { asset := asset, direction := dir, sweep_level := sweep,
      ts := ts, executed := false }
  if isRecentDuplicate store asset dir sweep ts
  then (store ++ [sig], false)
  else (store ++ [sig], true)

/-! ## Persistence schema (`sql/init.sql`) -/

/-- The statement forms occurring in `sql/init.sql`: `CREATE TABLE IF NOT
EXISTS`, `CREATE INDEX IF NOT EXISTS`, and `INSERT INTO bot_state ... ON
CONFLICT (key) DO NOTHING`. -/
inductive SqlStmt
  | createTable (name : String)
  | createIndex (name : String)
  | insertBotStateKey (key val : String)
deriving DecidableEq, Repr

/-- The schema-level database state: which tables and indexes exist, and
the seeded `bot_state` rows. -/
structure DbSchema where
  tables : List String
  indexes : List String
  botState : List (String × String)
deriving DecidableEq, Repr

/-- Execution of one `init.sql` statement: guarded creation (no-op when
the object exists) and conflict-ignoring insert (no-op when the key
exists). -/
def execStmt (db : DbSchema) : SqlStmt → DbSchema
  | .createTable n =>
      if n ∈ db.tables then db else { db with tables := db.tables ++ [n] }
  | .createIndex n =>
      if n ∈ db.indexes then db else { db with indexes := db.indexes ++ [n] }
  | .insertBotStateKey k v =>
      if k ∈ db.botState.map Prod.fst then db
      else { db with botState := db.botState ++ [(k, v)] }

/-- Execution of a statement list in order. -/
def execScript (db : DbSchema) : List SqlStmt → DbSchema
  | [] => db
  | st :: rest => execScript (execStmt db st) rest

/-- The guard of a statement already holds in a state: the table, index
or key it would create is present. -/
def stmtDone (db : DbSchema) : SqlStmt → Prop
  | .createTable n => n ∈ db.tables
  | .createIndex n => n ∈ db.indexes
  | .insertBotStateKey k _ => k ∈ db.botState.map Prod.fst

/-- The statements of `sql/init.sql`, in file order. -/
def initSql : List SqlStmt :=
  [.createTable "signals",
   .createIndex "idx_signals_asset_timestamp",
   .createIndex "idx_signals_trade_valid",
   .createIndex "idx_signals_recent_dedup",
   .createTable "trades",
   .createIndex "idx_trades_signal_id",
   .createIndex "idx_trades_status",
   .createIndex "idx_trades_asset_entry",
   .createTable "performance_stats",
   .createIndex "idx_perf_pattern_asset",
   .createTable "daily_trade_counts",
   .createIndex "idx_daily_counts",
   .createTable "bot_state",
   .insertBotStateKey "last_analyzed_XAUUSD" "",
   .insertBotStateKey "last_analyzed_US100" "",
   .createTable "bot_logs",
   .createIndex "idx_bot_logs_created",
   .createTable "user",
   .createTable "session",
   .createTable "account",
   .createTable "verification",
   .createIndex "session_userId_idx",
   .createIndex "session_token_idx",
   .createIndex "account_userId_idx",
   .createIndex "verification_identifier_idx"]

/-! ## GET /api/status (dashboard/src/app/api/status/route.ts) -/

/-- The 2-minute recency threshold, in milliseconds
(`const TWO_MIN = 2 * 60 * 1000`). -/
def TWO_MIN : Int := 2 * 60 * 1000

/-- The `bot_state` values the handler reads: `bot_paused`,
`last_analyzed_XAUUSD`, `last_analyzed_US100` (`none` when the row is
absent). -/
structure StatusRows where
  bot_paused : Option String
  last_analyzed_XAUUSD : Option String
  last_analyzed_US100 : Option String
deriving DecidableEq, Repr

/-- One asset's recency test, `lastXAU ? (now - new Date(lastXAU).getTime())
< TWO_MIN : false`: an absent or empty value is inactive (JS falsiness);
an unparseable value gives `NaN`, whose comparison is false (`parse`
abstracts `new Date(s).getTime()`, `none` standing for `NaN`). -/
def analyzedRecently (parse : String → Option Int) (now : Int) :
    Option String → Bool
  | none => false
  | some s =>
      if s = "" then false
      else
        match parse s with
        | none => false
        | some t => decide (now - t < TWO_MIN)

/-- The handler's `botActive = !paused && (xauActive || usActive)` with
`paused = state.bot_paused?.value === true-string`. -/
def botActive (parse : String → Option Int) (now : Int)
    (st : StatusRows) : Bool :=
  (!(st.bot_paused == some "true"))
    && (analyzedRecently parse now st.last_analyzed_XAUUSD
        || analyzedRecently parse now st.last_analyzed_US100)

/-- A stored value parses to a timestamp strictly less than two minutes
before now. -/
def parsesRecent (parse : String → Option Int) (now : Int)
    (v : Option String) : Prop :=
  ∃ s t, v = some s ∧ parse s = some t ∧ now - t < TWO_MIN

/-- A concrete timestamp parser for evaluating the status handler. -/
def parseFix : String → Option Int :=
  fun s => if s = "t100" then some 100 else none

/-- A concrete `bot_state` read for evaluating the status handler. -/
def statusRowsEx : StatusRows :=
  { bot_paused := some "false", last_analyzed_XAUUSD := some "t100",
    last_analyzed_US100 := none }

/-! ## POST /api/trades/[id]/close (manual-close endpoint) -/

/-- JavaScript whitespace skipped by `parseInt`. -/
def isJsSpace (c : Char) : Bool :=
  c == ' ' || c == '\t' || c == '\n' || c == '\r'

/-- Accumulation of leading decimal digits, `none` when no digit was
seen (the `NaN` case of `parseInt`). -/
def digitsValue : List Char → Option Nat → Option Nat
  | [], acc => acc
  | c :: cs, acc =>
      if c.isDigit
      then digitsValue cs (some (acc.getD 0 * 10 + (c.toNat - Char.toNat '0')))
      else acc

/-- JavaScript `parseInt(s)` in base 10: skip whitespace, optional sign,
longest digit prefix; `none` is `NaN`. -/
def jsParseInt (s : String) : Option Int :=
  match s.data.dropWhile isJsSpace with
  | '-' :: rest => (digitsValue rest none).map fun n => -(n : Int)
  | '+' :: rest => (digitsValue rest none).map fun n => (n : Int)
  | cs => (digitsValue cs none).map fun n => (n : Int)

/-- A trade row as read by the handler (`SELECT id, status FROM trades
WHERE id = $1`). -/
structure TradeRec where
  id : Int
  status : String
deriving DecidableEq, Repr

/-- The handler's four outcomes: 400 invalid id, 404 unknown trade,
400 already closed, 200 success. -/
inductive CloseResponse
  | invalidId
  | notFound
  | alreadyClosed
  | ok (tradeId : Int)
deriving DecidableEq, Repr

/-- The `INSERT ... ON CONFLICT (key) DO UPDATE` upsert on `bot_state`. -/
def upsertBotState (bs : List (String × String)) (k v : String) :
    List (String × String) :=
  if bs.any fun p => p.1 == k
  then bs.map fun p => if p.1 == k then (k, v) else p
  else bs ++ [(k, v)]

/-- The POST handler of the manual-close endpoint: parse the id, look the
trade up, reject non-open trades, otherwise upsert
`close_trade_<id> = pending-marker`. -/
def closeTradeHandler (trades : List TradeRec) (bs : List (String × String))
    (idStr : String) : CloseResponse × List (String × String) :=
  match jsParseInt idStr with
  | none => (CloseResponse.invalidId, bs)
  | some tid =>
    match trades.find? fun t => t.id == tid with
    | none => (CloseResponse.notFound, bs)
    | some t =>
      if t.status != "open" then (CloseResponse.alreadyClosed, bs)
      else (CloseResponse.ok tid,
            upsertBotState bs ("close_trade_" ++ toString tid) "pending")

/-! ## GET /api/stats (dashboard/src/app/api/stats/route.ts) -/

/-- A trade row as aggregated by the stats query: nullable `pnl` and the
`status` column. -/
structure TradeStat where
  pnl : Option ℚ
  status : String
deriving DecidableEq, Repr

/-- SQL `pnl > 0` (false on NULL). -/
def pnlPositive (t : TradeStat) : Bool :=
  match t.pnl with
  | some p => decide (0 < p)
  | none => false

/-- `COUNT(*) FILTER (WHERE pnl > 0)` — over ALL trades, open included. -/
def winningTrades (ts : List TradeStat) : Nat :=
  (ts.filter pnlPositive).length

/-- `COUNT(*) FILTER (WHERE status != open-status)`. -/
def closedCount (ts : List TradeStat) : Nat :=
  (ts.filter fun t => t.status != "open").length

/-- SQL `ROUND(x, 1)`: round half up to one decimal. -/
def round1 (q : ℚ) : ℚ := (Int.floor (q * 10 + 1 / 2) : ℚ) / 10

/-- The `win_rate` expression of the stats query: winning count over the
non-open count, as a percentage, 0 when no trade is closed. -/
def winRate (ts : List TradeStat) : ℚ :=
  if 0 < closedCount ts
  then round1 ((winningTrades ts : ℚ) / (closedCount ts : ℚ) * 100)
  else 0

/-- A database state with one open winning trade and one closed winning
trade. -/
def statsExample : List TradeStat :=
  [{ pnl := some 5, status := "open" }, { pnl := some 3, status := "closed" }]

end TradingBot

namespace TradingBot

/-! ## Theorems -/

/-- Helper: incrementing any (asset, day) counter never decreases the
counter read for a fixed (asset, day). -/
theorem quotaCount_upsert_ge (t : List QuotaRow) (a2 d2 a d : String) :
    quotaCount t a d ≤ quotaCount (quotaUpsertIncrement t a2 d2) a d := by
  induction t with
  | nil => simp [quotaCount, quotaUpsertIncrement]
  | cons r rs ih =>
    rw [quotaUpsertIncrement]
    by_cases h2 : r.asset = a2 ∧ r.trade_date = d2
    · rw [if_pos h2]
      simp only [quotaCount]
      split_ifs with h1
      · omega
      · exact le_refl _
    · rw [if_neg h2]
      simp only [quotaCount]
      split_ifs with h1
      · exact le_refl _
      · exact ih

/-- Helper: membership in the upserted table — every row either carries
the key fields of an original row or carries the upserted key. -/
theorem mem_quotaUpsertIncrement {b : QuotaRow} {t : List QuotaRow}
    {a d : String} (hb : b ∈ quotaUpsertIncrement t a d) :
    (∃ b0 ∈ t, b.asset = b0.asset ∧ b.trade_date = b0.trade_date) ∨
      (b.asset = a ∧ b.trade_date = d) := by
  induction t with
  | nil =>
    simp [quotaUpsertIncrement] at hb
    right
    simp [hb]
  | cons r rs ih =>
    by_cases h2 : r.asset = a ∧ r.trade_date = d
    · simp [quotaUpsertIncrement, h2] at hb
      rcases hb with hb | hb
      · left
        exact ⟨r, List.mem_cons_self r rs, by simp [hb, h2.1, h2.2]⟩
      · left
        exact ⟨b, List.mem_cons_of_mem r hb, rfl, rfl⟩
    · simp [quotaUpsertIncrement, h2] at hb
      rcases hb with hb | hb
      · left
        exact ⟨r, List.mem_cons_self r rs, by simp [hb]⟩
      · rcases ih hb with ⟨b0, hb0, he⟩ | he
        · exact Or.inl ⟨b0, List.mem_cons_of_mem r hb0, he⟩
        · exact Or.inr he

/-- Claim C3: every Decision the system produces or persists satisfies
`trade_valid=false ⇒ entry_price, sl_price, tp_price, rr_ratio all null`;
the enforcement step guarantees the invariant on its output. -/
theorem c3_null_invariant (d : Decision)
    (h : (enforceNullInvariant d).trade_valid = false) :
    (enforceNullInvariant d).entry_price = none ∧
    (enforceNullInvariant d).sl_price = none ∧
    (enforceNullInvariant d).tp_price = none ∧
    (enforceNullInvariant d).rr_ratio = none := by
  unfold enforceNullInvariant at *
  by_cases hv : d.trade_valid
  · simp [hv] at h
  · simp [hv]

/-- Claim C3 witness: the invariant enforcement evaluated at a concrete
invalid decision. -/
theorem c3_null_invariant_witness :
    (enforceNullInvariant
      { asset := "XAUUSD", direction := "long", scenario := "reversal",
        confidence := 70, entry_price := some 2000, sl_price := some 1990,
        tp_price := some 2020, rr_ratio := some 2,
        sweep_level := some "asia_high", trade_valid := false,
        reason := "low confidence", provider_used := "primary" }).entry_price
      = none :=
  (c3_null_invariant _ (by decide)).1

/-- Claim C4: a Decision accepted via the fallback provider has
`trade_valid=true` only when `confidence > 85`; otherwise the Router
force-overrides `trade_valid` to `false`. -/
theorem c4_fallback_confidence (d : Decision)
    (h : (routerFallbackOverride d).trade_valid = true) :
    (routerFallbackOverride d).confidence > 85 := by
  unfold routerFallbackOverride at *
  by_cases hc : d.confidence > 85
  · simp only [if_pos hc]
    exact hc
  · simp [hc, enforceNullInvariant] at h

/-- Claim C4 witness: the fallback override evaluated at a concrete
high-confidence decision. -/
theorem c4_fallback_confidence_witness :
    (routerFallbackOverride
      { asset := "US100", direction := "short", scenario := "continuation",
        confidence := 90, entry_price := some 15000, sl_price := some 15050,
        tp_price := some 14900, rr_ratio := some 2,
        sweep_level := some "london_low", trade_valid := true,
        reason := "ok", provider_used := "fallback" }).confidence > 85 :=
  c4_fallback_confidence _ (by decide)

/-- Claim C5: whenever the PositionSizer accepts a decision (valid
entry/sl pair, positive pip value), the computed lot size satisfies
`lot_size × stop_distance_pips × pip_value = capital × 1%` exactly
(rationals carry no rounding). -/
theorem c5_lot_size_risk (capital entry sl pipSize pipValue lot : ℚ)
    (h : computeLotSize capital entry sl pipSize pipValue = some lot) :
    lot * stopDistancePips entry sl pipSize * pipValue
      = capital * RISK_FRACTION := by
  unfold computeLotSize at h
  set pips := stopDistancePips entry sl pipSize with hp
  by_cases hcond : pips ≤ 0 ∨ pipValue ≤ 0
  · simp [hcond] at h
  · push_neg at hcond
    obtain ⟨h1, h2⟩ := hcond
    simp only [if_neg (by push_neg; exact ⟨h1, h2⟩ : ¬(pips ≤ 0 ∨ pipValue ≤ 0)),
      Option.some.injEq] at h
    have hne1 : pips ≠ 0 := ne_of_gt h1
    have hne2 : pipValue ≠ 0 := ne_of_gt h2
    rw [← h]
    field_simp
    ring

/-- Claim C5 witness: the sizing identity at a concrete account and trade
(capital 10000, entry 2005, sl 2000, pip size 1, pip value 10, lot 2). -/
theorem c5_lot_size_risk_witness :
    (2 : ℚ) * stopDistancePips 2005 2000 1 * 10 = 10000 * RISK_FRACTION :=
  c5_lot_size_risk 10000 2005 2000 1 10 2 (by
    unfold computeLotSize stopDistancePips RISK_FRACTION
    norm_num)

/-- Claim C6: the daily quota store admits at most one row per
(asset, calendar day) — `daily_trade_counts` carries
`UNIQUE(asset, trade_date)` and the quota upsert preserves the
no-duplicate invariant. -/
theorem c6_quota_unique (t : List QuotaRow) (a d : String)
    (h : quotaUnique t) : quotaUnique (quotaUpsertIncrement t a d) := by
  induction t with
  | nil =>
    simp [quotaUpsertIncrement, quotaUnique]
  | cons r rs ih =>
    rw [quotaUnique, List.pairwise_cons] at h
    obtain ⟨hhead, htail⟩ := h
    by_cases h2 : r.asset = a ∧ r.trade_date = d
    · rw [quotaUnique]
      simp only [quotaUpsertIncrement, if_pos h2]
      rw [List.pairwise_cons]
      exact ⟨fun b hb => hhead b hb, htail⟩
    · rw [quotaUnique]
      simp only [quotaUpsertIncrement, if_neg h2]
      rw [List.pairwise_cons]
      refine ⟨?_, ih htail⟩
      intro b hb hcontra
      rcases mem_quotaUpsertIncrement hb with ⟨b0, hb0, he1, he2⟩ | ⟨he1, he2⟩
      · exact hhead b0 hb0 ⟨hcontra.1.trans he1, hcontra.2.trans he2⟩
      · exact h2 ⟨hcontra.1.trans he1, hcontra.2.trans he2⟩

/-- Claim C6 witness: the preserved constraint at a concrete table. -/
theorem c6_quota_unique_witness :
    quotaUnique (quotaUpsertIncrement
      [⟨"XAUUSD", "2026-10-12", 1⟩, ⟨"US100", "2026-10-12", 2⟩]
      "XAUUSD" "2026-10-12") :=
  c6_quota_unique _ "XAUUSD" "2026-10-12" (by
    rw [quotaUnique]
    decide)

/-- Claim C1: once the persisted DailyQuota row for (asset, day) records
2 or more closed trades, no later otherwise-valid attempt for that
(asset, day) is ever executed — the counter only grows, and the quota
check stops every such attempt before execution. -/
theorem c1_quota_never_exceeded (s : GateState) (es : List GateEvent)
    (a d : String) (i : Nat)
    (hq : 2 ≤ quotaCount s.quota a d)
    (hi : i ∉ s.executed)
    (honly : ∀ a2 d2 v, GateEvent.attempt i a2 d2 v ∈ es → a2 = a ∧ d2 = d) :
    i ∉ (gateRun s es).executed := by
  induction es generalizing s with
  | nil => exact hi
  | cons e es ih =>
    rw [gateRun]
    apply ih (gateStep s e)
    · cases e with
      | closeTrade a2 d2 =>
        exact le_trans hq (quotaCount_upsert_ge s.quota a2 d2 a d)
      | attempt j a2 d2 v =>
        rw [gateStep]
        by_cases hc : v = true ∧ quotaCount s.quota a2 d2 < 2
        · simpa [hc] using hq
        · simpa [hc] using hq
    · cases e with
      | closeTrade a2 d2 => exact hi
      | attempt j a2 d2 v =>
        by_cases hij : j = i
        · obtain ⟨ha2, hd2⟩ := honly a2 d2 v (by rw [hij]; exact List.mem_cons_self _ _)
          have hc : ¬(v = true ∧ quotaCount s.quota a2 d2 < 2) := by
            rw [ha2, hd2]
            rintro ⟨-, hlt⟩
            omega
          simpa [gateStep, hc] using hi
        · rw [gateStep]
          by_cases hc : v = true ∧ quotaCount s.quota a2 d2 < 2
          · simp only [if_pos hc]
            simp only [List.mem_append, List.mem_singleton]
            rintro (hmem | hji)
            · exact hi hmem
            · exact hij hji.symm
          · simpa [hc] using hi
    · intro a2 d2 v hmem
      exact honly a2 d2 v (List.mem_cons_of_mem e hmem)

/-- Claim C1 witness: with the quota at 2 for (XAUUSD, day), a later
otherwise-valid attempt (id 5) is not executed by the run. -/
theorem c1_quota_never_exceeded_witness :
    5 ∉ (gateRun ⟨[⟨"XAUUSD", "2026-10-12", 2⟩], [1, 2]⟩
      [GateEvent.closeTrade "US100" "2026-10-12",
       GateEvent.attempt 5 "XAUUSD" "2026-10-12" true]).executed :=
  c1_quota_never_exceeded _ _ "XAUUSD" "2026-10-12" 5
    (by rw [quotaCount]; decide)
    (by decide)
    (by intro a2 d2 v hmem
        simp only [List.mem_cons, List.not_mem_nil, or_false] at hmem
        rcases hmem with hmem | hmem
        · simp at hmem
        · injection hmem with h1 h2 h3 h4
          exact ⟨h2, h3⟩)

/-- Claim C2: a Decision whose (asset, direction, sweep_level) matches a
persisted signal at most 15 minutes older is never executed — the dedup
gate stops it. -/
theorem c2_dedup_blocks (store : List Signal) (s1 : Signal)
    (a dir sw : String) (ts2 : Int)
    (hmem : s1 ∈ store) (ha : s1.asset = a) (hd : s1.direction = dir)
    (hs : s1.sweep_level = sw) (h1 : s1.ts ≤ ts2)
    (h2 : ts2 - s1.ts ≤ DEDUP_WINDOW) :
    (dedupGate store a dir sw ts2).2 = false := by
  have hdup : isRecentDuplicate store a dir sw ts2 = true := by
    rw [isRecentDuplicate, List.any_eq_true]
    refine ⟨s1, hmem, ?_⟩
    simp only [ha, hd, hs, beq_self_eq_true, Bool.and_eq_true,
      decide_eq_true_eq, true_and]
    exact ⟨by linarith, h1⟩
  simp [dedupGate, hdup]

/-- Claim C2 witness: a concrete duplicate 500 seconds after the first
signal is not executed. -/
theorem c2_dedup_blocks_witness :
    (dedupGate [⟨"XAUUSD", "long", "asia_high", 1000, true⟩]
      "XAUUSD" "long" "asia_high" 1500).2 = false :=
  c2_dedup_blocks _ ⟨"XAUUSD", "long", "asia_high", 1000, true⟩
    "XAUUSD" "long" "asia_high" 1500
    (List.mem_singleton.mpr rfl) rfl rfl rfl (by norm_num)
    (by norm_num [DEDUP_WINDOW])

/-- Helper: a statement whose guard already holds executes as a no-op. -/
theorem execStmt_done {db : DbSchema} {st : SqlStmt} (h : stmtDone db st) :
    execStmt db st = db := by
  cases st with
  | createTable n =>
    simp only [stmtDone] at h
    rw [execStmt, if_pos h]
  | createIndex n =>
    simp only [stmtDone] at h
    rw [execStmt, if_pos h]
  | insertBotStateKey k v =>
    simp only [stmtDone] at h
    rw [execStmt, if_pos h]

/-- Helper: executing any statement preserves an already-satisfied
guard (tables, indexes and keys only grow). -/
theorem execStmt_mono_done {db : DbSchema} {st st2 : SqlStmt}
    (h : stmtDone db st) : stmtDone (execStmt db st2) st := by
  cases st2 with
  | createTable n =>
    rw [execStmt]
    split_ifs with hc
    · exact h
    · cases st with
      | createTable m => simpa [stmtDone] using Or.inl h
      | createIndex m => exact h
      | insertBotStateKey k v => exact h
  | createIndex n =>
    rw [execStmt]
    split_ifs with hc
    · exact h
    · cases st with
      | createTable m => exact h
      | createIndex m => simpa [stmtDone] using Or.inl h
      | insertBotStateKey k v => exact h
  | insertBotStateKey k2 v2 =>
    rw [execStmt]
    split_ifs with hc
    · exact h
    · cases st with
      | createTable m => exact h
      | createIndex m => exact h
      | insertBotStateKey k v => simpa [stmtDone] using Or.inl h

/-- Helper: after executing a statement, its own guard holds. -/
theorem execStmt_self_done (db : DbSchema) (st : SqlStmt) :
    stmtDone (execStmt db st) st := by
  cases st with
  | createTable n =>
    rw [execStmt]
    split_ifs with hc
    · exact hc
    · simp [stmtDone]
  | createIndex n =>
    rw [execStmt]
    split_ifs with hc
    · exact hc
    · simp [stmtDone]
  | insertBotStateKey k v =>
    rw [execStmt]
    split_ifs with hc
    · exact hc
    · simp [stmtDone]

/-- Helper: a satisfied guard stays satisfied across a whole script. -/
theorem execScript_mono_done {db : DbSchema} {s : List SqlStmt}
    {st : SqlStmt} (h : stmtDone db st) : stmtDone (execScript db s) st := by
  induction s generalizing db with
  | nil => exact h
  | cons e es ih => exact ih (execStmt_mono_done h)

/-- Helper: after running a script, every statement of it has its guard
satisfied. -/
theorem execScript_all_done (db : DbSchema) (s : List SqlStmt) :
    ∀ st ∈ s, stmtDone (execScript db s) st := by
  induction s generalizing db with
  | nil => intro st h; simp at h
  | cons e es ih =>
    intro st hst
    rw [execScript]
    rcases List.mem_cons.mp hst with rfl | hst
    · exact execScript_mono_done (execStmt_self_done db st)
    · exact ih (execStmt db e) st hst

/-- Helper: a script all of whose guards are satisfied is a no-op. -/
theorem execScript_noop {db : DbSchema} {s : List SqlStmt}
    (h : ∀ st ∈ s, stmtDone db st) : execScript db s = db := by
  induction s with
  | nil => rfl
  | cons e es ih =>
    rw [execScript, execStmt_done (h e (List.mem_cons_self _ _))]
    exact ih fun st hst => h st (List.mem_cons_of_mem e hst)

/-- Claim C7: applying `sql/init.sql` twice yields the same schema and
seeded `bot_state` rows as applying it once — every CREATE is guarded by
IF NOT EXISTS and every seed INSERT by ON CONFLICT DO NOTHING, so the
second run is a no-op on any starting state. -/
theorem c7_schema_idempotent (db : DbSchema) :
    execScript (execScript db initSql) initSql = execScript db initSql :=
  execScript_noop (execScript_all_done db initSql)

/-- Claim C8: the status handler reports `bot_active = true` exactly when
the persisted `bot_paused` value is not the true-string and at least one
of the two last-analyzed values parses to a timestamp strictly less than
two minutes before now; in particular a paused bot is never active. -/
theorem c8_status_active_iff (parse : String → Option Int) (now : Int)
    (st : StatusRows) (hparse : parse "" = none) :
    botActive parse now st = true ↔
      (st.bot_paused ≠ some "true" ∧
        (parsesRecent parse now st.last_analyzed_XAUUSD ∨
         parsesRecent parse now st.last_analyzed_US100)) := by
  have key : ∀ v : Option String,
      analyzedRecently parse now v = true ↔ parsesRecent parse now v := by
    intro v
    cases v with
    | none => simp [analyzedRecently, parsesRecent]
    | some s =>
      by_cases hs : s = ""
      · subst hs
        simp [analyzedRecently, parsesRecent, hparse]
      · cases hp : parse s with
        | none => simp [analyzedRecently, parsesRecent, hs, hp]
        | some t => simp [analyzedRecently, parsesRecent, hs, hp]
  rw [botActive, Bool.and_eq_true, Bool.or_eq_true, key, key,
    Bool.not_eq_true', beq_eq_false_iff_ne]

/-- Claim C8 witness: with an unpaused state and a last-analyzed value
parsing 900 milliseconds before now, the handler reports active. -/
theorem c8_status_active_iff_witness :
    botActive parseFix 1000 statusRowsEx = true :=
  (c8_status_active_iff parseFix 1000 statusRowsEx (by simp [parseFix])).mpr
    ⟨by simp [statusRowsEx],
     Or.inl ⟨"t100", 100, rfl, by simp [parseFix], by norm_num [TWO_MIN]⟩⟩

/-- Claim C9: the manual-close handler upserts `close_trade_<id>` to the
pending marker exactly when the id parses and names an existing open
trade; otherwise it answers an error (400 or 404) and leaves `bot_state`
untouched. -/
theorem c9_close_trade_gate (trades : List TradeRec)
    (bs : List (String × String)) (idStr : String)
    (huniq : trades.Pairwise fun r1 r2 => r1.id ≠ r2.id) :
    (∀ tid, jsParseInt idStr = some tid →
      ∀ t, t ∈ trades → t.id = tid → t.status = "open" →
        closeTradeHandler trades bs idStr =
          (CloseResponse.ok tid,
           upsertBotState bs ("close_trade_" ++ toString tid) "pending")) ∧
    ((¬ ∃ tid, jsParseInt idStr = some tid ∧
        ∃ t, t ∈ trades ∧ t.id = tid ∧ t.status = "open") →
      (closeTradeHandler trades bs idStr).2 = bs ∧
      ∀ tid, (closeTradeHandler trades bs idStr).1 ≠ CloseResponse.ok tid) := by
  have hsym : Symmetric fun r1 r2 : TradeRec => r1.id ≠ r2.id :=
    fun _ _ h => h.symm
  constructor
  · intro tid hp t hmem hid hopen
    simp only [closeTradeHandler, hp]
    cases hf : trades.find? fun t2 => t2.id == tid with
    | none =>
      exfalso
      have := List.find?_eq_none.mp hf t hmem
      simp [hid] at this
    | some t0 =>
      have h0id : t0.id = tid := by
        have := List.find?_some hf
        simpa using this
      have h0mem : t0 ∈ trades := List.mem_of_find?_eq_some hf
      by_cases hst : t0.status = "open"
      · simp [hst]
      · exfalso
        have hne : t ≠ t0 := by
          intro he
          rw [he] at hopen
          exact hst hopen
        exact (huniq.forall hsym hmem h0mem hne) (hid.trans h0id.symm)
  · intro hne
    cases hp : jsParseInt idStr with
    | none =>
      rw [closeTradeHandler, hp]
      exact ⟨rfl, fun tid h => by simp at h⟩
    | some tid =>
      simp only [closeTradeHandler, hp]
      cases hf : trades.find? fun t2 => t2.id == tid with
      | none =>
        exact ⟨rfl, fun tid2 h => by simp at h⟩
      | some t0 =>
        have h0id : t0.id = tid := by
          have := List.find?_some hf
          simpa using this
        have h0mem : t0 ∈ trades := List.mem_of_find?_eq_some hf
        by_cases hst : t0.status = "open"
        · exact absurd ⟨tid, hp, t0, h0mem, h0id, hst⟩ hne
        · have hbne : (t0.status != "open") = true := by
            simpa using hst
          simp [hbne]

/-- Claim C9 witness: closing open trade 7 with id string 7 performs the
pending upsert. -/
theorem c9_close_trade_gate_witness :
    closeTradeHandler [{ id := 7, status := "open" }] [] "7" =
      (CloseResponse.ok 7,
       upsertBotState [] ("close_trade_" ++ toString (7 : Int)) "pending") :=
  (c9_close_trade_gate [{ id := 7, status := "open" }] [] "7"
      (by simp)).1 7 (by decide) { id := 7, status := "open" }
    (List.mem_singleton.mpr rfl) rfl rfl

/-- Claim C10: `winning_trades` counts open trades with positive pnl
while `win_rate` divides by the non-open count only, so a state with an
open winner and a closed winner reports a win rate of 200 percent. -/
theorem c10_win_rate_over_100 :
    winningTrades statsExample = 2 ∧
    winningTrades [({ pnl := some 5, status := "open" } : TradeStat)] = 1 ∧
    closedCount statsExample = 1 ∧
    winRate statsExample = 200 ∧
    100 < winRate statsExample := by
  have hw : winningTrades statsExample = 2 := by decide
  have hc : closedCount statsExample = 1 := by decide
  have hr : winRate statsExample = 200 := by
    rw [winRate, hw, hc]
    norm_num [round1]
  exact ⟨hw, by decide, hc, hr, by rw [hr]; norm_num⟩

end TradingBot
